import Mathlib

/-! Shallow embedding of the retrieval-and-answer pipeline of the
manufacturing-maintenance query agent (backend/main_openrouter.py, the
canonical variant per the design notes; backend/main_simple.py shares the
store, upload and delete logic).  Text is modelled as `List Char`; the
in-memory `documents` dict is an association list in insertion order; the
external completion service and the per-file extraction outcomes are
oracles passed as explicit arguments.
-/

namespace Agent

/-- Text is a list of characters; Python string slicing, lowercasing and
substring tests act on characters. -/
abbrev Str := List Char

/-- Stored document kind, from the `type` field: `txt` if the filename ends
in `.txt`, else `pdf`. -/
inductive DocKind where
  | txt
  | pdf
deriving DecidableEq, Repr

/-- A stored document record: `{content, size, type}` as built at upload. -/
structure Doc where
  content : Str
  size : Nat
  kind : DocKind
deriving DecidableEq, Repr

/-- The in-memory `documents` dict: id (filename) to record, in insertion
order, keys unique for stores reachable from the empty store. -/
abbrev Store := List (Str × Doc)

/-- Keys of the store, in insertion order. -/
def keys (s : Store) : List Str := s.map (fun e => e.1)

/-- Python `keyword in content_lower`: substring containment. -/
def isSubstr (needle hay : Str) : Bool := hay.tails.any (fun t => needle.isPrefixOf t)

/-- Python `s.lower()` character by character. -/
def lowerStr (s : Str) : Str := s.map Char.toLower

/-- Accumulator-based whitespace splitter implementing Python `str.split()`
with no argument: runs of whitespace separate tokens, empty tokens dropped. -/
def splitWsAux : Str → Str → List Str
  | [], acc => if acc = [] then [] else [acc.reverse]
  | c :: rest, acc =>
      if c.isWhitespace then
        (if acc = [] then splitWsAux rest [] else acc.reverse :: splitWsAux rest [])
      else splitWsAux rest (c :: acc)

/-- Python `question.lower().split()`: lowercase, then split on whitespace. -/
def tokenize (q : Str) : List Str := splitWsAux (lowerStr q) []

/-- Line 191: `matches = sum(1 for keyword in keywords if keyword in content_lower)`. -/
def match_count (keywords : List Str) (content_lower : Str) : Nat :=
  keywords.countP (fun k => isSubstr k content_lower)

/-- An entry of `relevant_docs`: content, source filename, similarity score. -/
structure RankedMatch where
  content : Str
  source : Str
  similarity : ℚ
deriving DecidableEq, Repr

/-- Loop body of lines 186-199 for one store entry: keep a match with score
`matches / len(keywords)` whenever `matches > 0`. -/
def scan_entry (keywords : List Str) (e : Str × Doc) : Option RankedMatch :=
  if 0 < match_count keywords (lowerStr e.2.content) then
    some ⟨e.2.content, e.1,
      (match_count keywords (lowerStr e.2.content) : ℚ) / (keywords.length : ℚ)⟩
  else none

/-- Lines 186-199: scan the store in snapshot (insertion) order, keeping a
match with score `matches / len(keywords)` whenever `matches > 0`. -/
def scan_documents (question : Str) (store : Store) : List RankedMatch :=
  store.filterMap (scan_entry (tokenize question))

/-- Ordering used by `relevant_docs.sort(key=..., reverse=True)`: `a` may
come before `b` exactly when the similarity of `b` is at most that of `a`. -/
def rank_ge (a b : RankedMatch) : Prop := b.similarity ≤ a.similarity

instance : DecidableRel rank_ge :=
  fun a b => inferInstanceAs (Decidable (b.similarity ≤ a.similarity))

instance : IsTotal RankedMatch rank_ge where
  total a b := le_total b.similarity a.similarity

instance : IsTrans RankedMatch rank_ge where
  trans a b c hab hbc := le_trans hbc hab

/-- Lines 182-202: score, filter and stable-sort the matches in descending
similarity order.  Python list.sort with reverse=True is specified as a
stable sort keeping ties in original order; insertion sort with `rank_ge`
implements exactly that specification. -/
def rank_documents (question : Str) (store : Store) : List RankedMatch :=
  (scan_documents question store).insertionSort rank_ge

/-- An entry of `relevant_sections` / `display_sections`: excerpt content and
source filename. -/
structure DocSection where
  content : Str
  source : Str
deriving DecidableEq, Repr

/-- The `QueryResponse` pydantic model. -/
structure QueryResponse where
  answer : Str
  relevant_sections : List DocSection
  confidence : ℚ
deriving DecidableEq, Repr

/-- Oracle for the outcome of the single `requests.post` call: either the
request raised in transport (timeout, connection error, ...) with a rendered
reason, or a response arrived with a status code and a parse outcome for
extracting `choices[0].message.content` (parse errors cover malformed
bodies). -/
inductive ParseOutcome where
  | ok (content : Str)
  | error (reason : Str)
deriving DecidableEq, Repr

/-- Oracle for the outcome of the single HTTP exchange. -/
inductive Transport where
  | exnRaised (reason : Str)
  | httpResponse (status : Nat) (parse : ParseOutcome)
deriving DecidableEq, Repr

/-- Decimal rendering of a number, as Python string formatting does. -/
def natStr (n : Nat) : Str := (toString n).toList

/-- Python truthiness of `OPENROUTER_API_KEY`: set and non-empty. -/
def key_configured : Option Str → Bool
  | none => false
  | some s => !s.isEmpty

/-- Line 65: the fixed advisory answer when no credential is configured. -/
def advisory : Str :=
  "Please set OPENROUTER_API_KEY environment variable for AI-powered responses. Using basic search instead.".toList

/-- Line 103: fallback answer embedding a non-200 status code. -/
def svc_error (status : Nat) : Str :=
  "AI service error: ".toList ++ natStr status ++ ". Using basic search instead.".toList

/-- Line 106: fallback answer embedding the rendered failure reason. -/
def svc_unavailable (reason : Str) : Str :=
  "AI service unavailable: ".toList ++ reason ++ ". Using basic search instead.".toList

/-- Lines 61-106, `query_openrouter`: unconfigured key gives the advisory
string; otherwise the transport oracle decides: a raised request error gives
the unavailable fallback, a 200 response returns the parsed content (a body
parse failure raises and is caught into the unavailable fallback), and any
other status gives the status-code fallback.  The question and context only
shape the outbound request, which the oracle abstracts. -/
def query_openrouter (api_key : Option Str) (question context : Str) (t : Transport) : Str :=
  if key_configured api_key then
    match t with
    | .exnRaised reason => svc_unavailable reason
    | .httpResponse status parse =>
      if status = 200 then
        match parse with
        | .ok content => content
        | .error reason => svc_unavailable reason
      else
        svc_error status
  else
    advisory

/-- The blank-line separator `"\n\n"` used by the context join. -/
def blank_sep : Str := "\n\n".toList

/-- The three-character ellipsis marker appended to truncated excerpts. -/
def ellipsis : Str := "...".toList

/-- Line 221: `content[:500] + "..." if len(content) > 500 else content`. -/
def excerpt (c : Str) : Str :=
  if 500 < c.length then c.take 500 ++ ellipsis else c

/-- Line 213: `"\n\n".join(doc.content for doc in relevant_docs[:2])`. -/
def assemble_context (docs : List RankedMatch) : Str :=
  List.intercalate blank_sep ((docs.take 2).map (fun d => d.content))

/-- Lines 219-225: display sections for the candidate matches, excerpted. -/
def display_sections (docs : List RankedMatch) : List DocSection :=
  docs.map (fun d => ⟨excerpt d.content, d.source⟩)

/-- Line 177: the fixed empty-store answer. -/
def no_docs_answer : Str :=
  "No documents have been uploaded yet. Please upload some equipment manuals or maintenance documents first.".toList

/-- Line 207: the fixed zero-match answer. -/
def no_relevant_answer : Str :=
  "No relevant information found in the uploaded documents. Try using different keywords or upload more comprehensive manuals.".toList

/-- Lines 171-231, the `/query` route as a state transformer: the handler
only reads the store; empty store and zero matches are terminal fixed
responses, otherwise the top 3 matches feed display sections, the top 2 feed
the context handed to `query_openrouter`, and confidence is the literal 0.0
on every path. -/
def query_route (store : Store) (question : Str) (api_key : Option Str) (t : Transport) :
    Store × QueryResponse :=
  if store.isEmpty then
    (store, ⟨no_docs_answer, [], 0⟩)
  else
    let ranked := rank_documents question store
    let top3 := ranked.take 3
    if top3.isEmpty then
      (store, ⟨no_relevant_answer, [], 0⟩)
    else
      (store, ⟨query_openrouter api_key question (assemble_context top3) t,
               display_sections top3, 0⟩)

/-- The response part of the `/query` route. -/
def query_documents (store : Store) (question : Str) (api_key : Option Str) (t : Transport) :
    QueryResponse :=
  (query_route store question api_key t).2

/-- Dict insert/overwrite `documents[id] = d`: an existing key keeps its
position with its record replaced; a new key is appended. -/
def put_store (s : Store) (id : Str) (d : Doc) : Store :=
  if s.any (fun e => decide (e.1 = id)) then
    s.map (fun e => if e.1 = id then (id, d) else e)
  else
    s ++ [(id, d)]

/-- Lines 150-155: store the extracted text under the filename with
`size = len(text_content)` and the kind derived from the extension. -/
def put_document (s : Store) (id : Str) (content : Str) (kind : DocKind) : Store :=
  put_store s id ⟨content, content.length, kind⟩

/-- Lookup of a document record by id. -/
def lookup (s : Store) (id : Str) : Option Doc :=
  (s.find? (fun e => decide (e.1 = id))).map (fun e => e.2)

/-- String form of a caught HTTPException, `"{status_code}: {detail}"`. -/
def exc_str (status : Nat) (detail : Str) : Str :=
  natStr status ++ ": ".toList ++ detail

/-- Outcome of the delete route at the HTTP boundary. -/
inductive DeleteOutcome where
  | ok (msg : Str)
  | httpError (status : Nat) (detail : Str)
deriving DecidableEq, Repr

/-- Detail of the 404 raised for a missing id. -/
def not_found_detail (filename : Str) : Str :=
  "Document ".toList ++ filename ++ " not found".toList

/-- Success message of the delete route. -/
def deleted_msg (filename : Str) : Str :=
  "Document ".toList ++ filename ++ " deleted successfully".toList

/-- Lines 251-261, the `/documents/{filename}` delete route: a present id is
removed and reported; for a missing id the handler raises HTTPException 404
inside the try block, and since HTTPException subclasses Exception the
catch-all re-raises it as HTTPException 500 with the stringified original. -/
def delete_document (store : Store) (filename : Str) : Store × DeleteOutcome :=
  if store.any (fun e => decide (e.1 = filename)) then
    (store.filter (fun e => !(decide (e.1 = filename))), .ok (deleted_msg filename))
  else
    (store, .httpError 500 (exc_str 404 (not_found_detail filename)))

/-- Oracle for reading/extracting one uploaded file: the decoded text, or
the rendered message of the exception raised by decoding or PDF parsing. -/
inductive ExtractOutcome where
  | ok (content : Str)
  | raises (msg : Str)
deriving DecidableEq, Repr

/-- One uploaded file: its filename and its extraction oracle. -/
structure FileUpload where
  filename : Str
  extract : ExtractOutcome
deriving DecidableEq, Repr

/-- Python `filename.endswith(pat)`. -/
def ends_with (pat s : Str) : Bool := pat.isSuffixOf s

/-- Line 132: `filename.endswith(('.pdf', '.txt'))`. -/
def valid_ext (f : Str) : Bool := ends_with ".pdf".toList f || ends_with ".txt".toList f

/-- An entry of `processed_docs`. -/
structure UploadOk where
  filename : Str
  chunks : Nat
  size : Nat
deriving DecidableEq, Repr

/-- Outcome of the upload route at the HTTP boundary. -/
inductive UploadOutcome where
  | ok (processed : List UploadOk)
  | httpError (status : Nat) (detail : Str)
deriving DecidableEq, Repr

/-- Detail of the 400 raised for a bad extension. -/
def unsupported_detail (filename : Str) : Str :=
  "Unsupported file type: ".toList ++ filename

/-- Loop body of the upload route over the file list.  A bad extension
raises HTTPException 400 inside the try block, which the catch-all rewraps
as a 500 with the stringified original; an extraction failure raises and is
rewrapped as a 500 with the exception text.  Files already processed before
the failing one remain stored (the loop mutates the shared dict as it
goes). -/
def upload_go (store : Store) (acc : List UploadOk) : List FileUpload → Store × UploadOutcome
  | [] => (store, .ok acc)
  | f :: rest =>
    if valid_ext f.filename then
      match f.extract with
      | .raises msg => (store, .httpError 500 msg)
      | .ok content =>
          upload_go
            (put_document store f.filename content
              (if ends_with ".txt".toList f.filename then .txt else .pdf))
            (acc ++ [⟨f.filename, 1, content.length⟩]) rest
    else
      (store, .httpError 500 (exc_str 400 (unsupported_detail f.filename)))

/-- Lines 124-169, the `/upload` route as a state transformer. -/
def upload_documents (store : Store) (files : List FileUpload) : Store × UploadOutcome :=
  upload_go store [] files

/-- Store-mutating operations of the boundary: the upload path inserts a
document, the delete path removes one. -/
inductive StoreOp where
  | upsert (id : Str) (content : Str) (kind : DocKind)
  | remove (id : Str)
deriving DecidableEq, Repr

/-- Apply one operation to the store. -/
def apply_op (s : Store) : StoreOp → Store
  | .upsert id c k => put_document s id c k
  | .remove id => (delete_document s id).1

/-- The store reached from the empty initial store by a sequence of
operations. -/
def run_ops (ops : List StoreOp) : Store := ops.foldl apply_op []

/-! Concrete inputs used by witnesses and counterexamples. -/

/-- Content of the demo manual from the spec scenarios. -/
def demo_content : Str := "Replace the bearing every 500 hours of operation.".toList

/-- Filename of the demo manual. -/
def fn_manual : Str := "manual.txt".toList

/-- A one-document store holding the demo manual. -/
def demo_store : Store := [(fn_manual, ⟨demo_content, demo_content.length, .txt⟩)]

/-- The demo query; both of its tokens occur in the demo content. -/
def q_bearing : Str := "bearing hours".toList

/-- The unique ranked match produced by the demo query on the demo store. -/
def m0 : RankedMatch :=
  ⟨demo_content, fn_manual,
    (match_count (tokenize q_bearing) (lowerStr demo_content) : ℚ) /
      ((tokenize q_bearing).length : ℚ)⟩

/-! Helper lemmas about scanning, ranking and scores. -/

theorem mem_scan_iff {q : Str} {s : Store} {m : RankedMatch} :
    m ∈ scan_documents q s ↔ ∃ e ∈ s,
      0 < match_count (tokenize q) (lowerStr e.2.content) ∧
      m = ⟨e.2.content, e.1,
        (match_count (tokenize q) (lowerStr e.2.content) : ℚ) /
          ((tokenize q).length : ℚ)⟩ := by
  simp only [scan_documents, List.mem_filterMap]
  constructor
  · rintro ⟨e, he, hf⟩
    by_cases h : 0 < match_count (tokenize q) (lowerStr e.2.content)
    · refine ⟨e, he, h, ?_⟩
      simp only [scan_entry, if_pos h, Option.some.injEq] at hf
      exact hf.symm
    · simp [scan_entry, if_neg h] at hf
  · rintro ⟨e, he, h, rfl⟩
    exact ⟨e, he, by simp [scan_entry, if_pos h]⟩

theorem mem_rank_iff {q : Str} {s : Store} {m : RankedMatch} :
    m ∈ rank_documents q s ↔ m ∈ scan_documents q s := by
  unfold rank_documents
  exact List.mem_insertionSort rank_ge

theorem rank_sorted (q : Str) (s : Store) :
    (rank_documents q s).Pairwise (fun a b => b.similarity ≤ a.similarity) := by
  have h := List.sorted_insertionSort rank_ge (scan_documents q s)
  exact h

theorem rank_stable (l : List RankedMatch) (x : ℚ) :
    (l.insertionSort rank_ge).filter (fun m => decide (m.similarity = x)) =
      l.filter (fun m => decide (m.similarity = x)) := by
  have hpair : (l.filter (fun m => decide (m.similarity = x))).Pairwise rank_ge := by
    refine List.pairwise_of_forall_mem_list ?_
    intro a ha b hb
    have ha2 := of_decide_eq_true (List.mem_filter.mp ha).2
    have hb2 := of_decide_eq_true (List.mem_filter.mp hb).2
    unfold rank_ge
    rw [ha2, hb2]
  have hsub : List.Sublist (l.filter (fun m => decide (m.similarity = x)))
      (l.insertionSort rank_ge) :=
    List.sublist_insertionSort hpair (List.filter_sublist l)
  have hsub2 : List.Sublist (l.filter (fun m => decide (m.similarity = x)))
      ((l.insertionSort rank_ge).filter (fun m => decide (m.similarity = x))) := by
    have h3 := hsub.filter (fun m => decide (m.similarity = x))
    rwa [List.filter_eq_self.mpr (fun a ha => (List.mem_filter.mp ha).2)] at h3
  have hlen : (l.filter (fun m => decide (m.similarity = x))).length =
      ((l.insertionSort rank_ge).filter (fun m => decide (m.similarity = x))).length := by
    rw [← List.countP_eq_length_filter, ← List.countP_eq_length_filter]
    exact ((List.perm_insertionSort rank_ge l).countP_eq _).symm
  exact (hsub2.eq_of_length hlen).symm

theorem score_in_Ioc {kw : List Str} {c : Str} (h : 0 < match_count kw c) :
    0 < (match_count kw c : ℚ) / (kw.length : ℚ) ∧
      (match_count kw c : ℚ) / (kw.length : ℚ) ≤ 1 := by
  have hle : match_count kw c ≤ kw.length := by
    unfold match_count
    exact List.countP_le_length _
  have hnpos : 0 < kw.length := lt_of_lt_of_le h hle
  have hn : (0 : ℚ) < (kw.length : ℚ) := by exact_mod_cast hnpos
  have hm : (0 : ℚ) < (match_count kw c : ℚ) := by exact_mod_cast h
  refine ⟨div_pos hm hn, ?_⟩
  rw [div_le_one hn]
  exact_mod_cast hle

/-! Claim theorems. -/

/-- C1: for every query and store, the ranking step scores each returned
match as matched-token-count over total-query-token-count with
case-insensitive substring matching, keeps exactly the documents with a
positive match count, is sorted in non-increasing score order with ties
keeping the snapshot (insertion) order of the store scan, and every
returned score lies in (0, 1]. -/
theorem c1_rank_documents_spec (question : Str) (store : Store) :
    (∀ m ∈ rank_documents question store, ∃ e ∈ store,
        m.source = e.1 ∧ m.content = e.2.content ∧
        0 < match_count (tokenize question) (lowerStr e.2.content) ∧
        m.similarity = (match_count (tokenize question) (lowerStr e.2.content) : ℚ) /
          ((tokenize question).length : ℚ)) ∧
    (∀ e ∈ store, 0 < match_count (tokenize question) (lowerStr e.2.content) →
        (⟨e.2.content, e.1, (match_count (tokenize question) (lowerStr e.2.content) : ℚ) /
          ((tokenize question).length : ℚ)⟩ : RankedMatch) ∈ rank_documents question store) ∧
    (rank_documents question store).Pairwise (fun a b => b.similarity ≤ a.similarity) ∧
    (∀ x : ℚ, (rank_documents question store).filter (fun m => decide (m.similarity = x)) =
        (scan_documents question store).filter (fun m => decide (m.similarity = x))) ∧
    (∀ m ∈ rank_documents question store, 0 < m.similarity ∧ m.similarity ≤ 1) := by
  refine ⟨?_, ?_, rank_sorted question store, fun x => rank_stable _ x, ?_⟩
  · intro m hm
    obtain ⟨e, he, hpos, rfl⟩ := mem_scan_iff.mp (mem_rank_iff.mp hm)
    exact ⟨e, he, rfl, rfl, hpos, rfl⟩
  · intro e he hpos
    exact mem_rank_iff.mpr (mem_scan_iff.mpr ⟨e, he, hpos, rfl⟩)
  · intro m hm
    obtain ⟨e, _, hpos, rfl⟩ := mem_scan_iff.mp (mem_rank_iff.mp hm)
    exact score_in_Ioc hpos

/-- C1 witness: the spec scenario store and query produce the predicted
single full-score match, whose score lies in (0, 1]. -/
theorem c1_rank_documents_spec_witness :
    0 < m0.similarity ∧ m0.similarity ≤ 1 :=
  (c1_rank_documents_spec q_bearing demo_store).2.2.2.2 m0 (by
    have h : rank_documents q_bearing demo_store = [m0] := rfl
    rw [h]
    exact List.mem_singleton.mpr rfl)

/-- C9: on an empty store the query operation returns the fixed no-documents
result with empty sections and confidence 0.0, independently of the
credential and of the external service, and the answer contains the text
"No documents". -/
theorem c9_query_empty_store (question : Str) (k : Option Str) (t : Transport) :
    query_documents [] question k t =
      ⟨no_docs_answer, [], 0⟩ ∧
    isSubstr "No documents".toList no_docs_answer = true :=
  ⟨rfl, rfl⟩

/-- C8: a query whose token list is empty yields an empty ranking (the
score division is guarded by a positive match count, which an empty token
list makes impossible), and on a non-empty store the query operation
returns the fixed no-relevant-information result rather than failing. -/
theorem c8_rank_empty_query (question : Str) (store : Store) (k : Option Str) (t : Transport)
    (h : tokenize question = []) :
    rank_documents question store = [] ∧
    (store ≠ [] → query_documents store question k t =
      ⟨no_relevant_answer, [], 0⟩) := by
  have hscan : scan_documents question store = [] := by
    rw [scan_documents, List.filterMap_eq_nil_iff]
    intro e _
    simp [scan_entry, h, match_count]
  have hrank : rank_documents question store = [] := by
    rw [rank_documents, hscan]
    rfl
  refine ⟨hrank, fun hne => ?_⟩
  have hse : store.isEmpty = false := by
    cases store with
    | nil => exact absurd rfl hne
    | cons a l => rfl
  simp [query_documents, query_route, hse, hrank]

/-- C8 witness: the empty question on the demo store. -/
theorem c8_rank_empty_query_witness :
    rank_documents [] demo_store = [] ∧
    query_documents demo_store [] none (.exnRaised []) =
      ⟨no_relevant_answer, [], 0⟩ :=
  ⟨(c8_rank_empty_query [] demo_store none (.exnRaised []) rfl).1,
   (c8_rank_empty_query [] demo_store none (.exnRaised []) rfl).2 (by decide)⟩

/-- C10: the query route never mutates the document store, on the
empty-store, zero-match and answered paths alike. -/
theorem c10_query_preserves_store (store : Store) (question : Str) (k : Option Str)
    (t : Transport) :
    (query_route store question k t).1 = store := by
  unfold query_route
  by_cases h1 : store.isEmpty
  · simp [h1]
  · by_cases h2 : (List.take 3 (rank_documents question store)).isEmpty
    · simp [h1, h2]
    · simp [h1, h2]

/-- C2: the answer generator always returns a string and absorbs every
failure: an unconfigured credential yields the fixed advisory string, a
non-200 response yields the fallback string embedding the status code, a
transport failure (or a malformed 200 body) yields the fallback string
embedding the failure reason, and a parsed 200 body is returned verbatim. -/
theorem c2_query_openrouter_total (k : Option Str) (q c : Str) (t : Transport) :
    (key_configured k = false → query_openrouter k q c t = advisory) ∧
    (∀ status parse, key_configured k = true → t = .httpResponse status parse →
      status ≠ 200 → query_openrouter k q c t =
        "AI service error: ".toList ++ natStr status ++ ". Using basic search instead.".toList) ∧
    (∀ reason, key_configured k = true → t = .exnRaised reason →
      query_openrouter k q c t =
        "AI service unavailable: ".toList ++ reason ++ ". Using basic search instead.".toList) ∧
    (∀ reason, key_configured k = true → t = .httpResponse 200 (.error reason) →
      query_openrouter k q c t =
        "AI service unavailable: ".toList ++ reason ++ ". Using basic search instead.".toList) ∧
    (∀ content, key_configured k = true → t = .httpResponse 200 (.ok content) →
      query_openrouter k q c t = content) := by
  refine ⟨fun hk => ?_, fun status parse hk ht hs => ?_, fun reason hk ht => ?_,
    fun reason hk ht => ?_, fun content hk ht => ?_⟩
  · simp [query_openrouter, hk]
  · subst ht
    simp [query_openrouter, hk, hs, svc_error]
  · subst ht
    simp [query_openrouter, hk, svc_unavailable]
  · subst ht
    simp [query_openrouter, hk, svc_unavailable]
  · subst ht
    simp [query_openrouter, hk]

/-- C2 witness: each branch of the generator at concrete inputs. -/
theorem c2_query_openrouter_total_witness :
    query_openrouter none q_bearing demo_content (.exnRaised []) = advisory ∧
    query_openrouter (some "sk".toList) [] [] (.httpResponse 503 (.ok [])) =
      "AI service error: ".toList ++ natStr 503 ++ ". Using basic search instead.".toList ∧
    query_openrouter (some "sk".toList) [] [] (.exnRaised "timeout".toList) =
      "AI service unavailable: ".toList ++ "timeout".toList ++
        ". Using basic search instead.".toList ∧
    query_openrouter (some "sk".toList) [] [] (.httpResponse 200 (.error "bad json".toList)) =
      "AI service unavailable: ".toList ++ "bad json".toList ++
        ". Using basic search instead.".toList ∧
    query_openrouter (some "sk".toList) [] [] (.httpResponse 200 (.ok "the answer".toList)) =
      "the answer".toList :=
  ⟨(c2_query_openrouter_total none q_bearing demo_content (.exnRaised [])).1 rfl,
   (c2_query_openrouter_total (some "sk".toList) [] [] (.httpResponse 503 (.ok []))).2.1
     503 (.ok []) rfl rfl (by decide),
   (c2_query_openrouter_total (some "sk".toList) [] [] (.exnRaised "timeout".toList)).2.2.1
     "timeout".toList rfl rfl,
   (c2_query_openrouter_total (some "sk".toList) [] []
       (.httpResponse 200 (.error "bad json".toList))).2.2.2.1 "bad json".toList rfl rfl,
   (c2_query_openrouter_total (some "sk".toList) [] []
       (.httpResponse 200 (.ok "the answer".toList))).2.2.2.2 "the answer".toList rfl rfl⟩

/-- C3: for a non-empty ranked sequence the assembled context is the full
untruncated contents of the top 2 matches joined by the blank-line
separator in rank order; the display sections cover the top 3 matches; an
excerpt of a content of length L has length min(L, 500) plus a 3-character
ellipsis exactly when L > 500 and equals the content otherwise; and the
query operation wires exactly these into its response. -/
theorem c3_assembler_spec (ranked : List RankedMatch) (c : Str) (h : ranked ≠ []) :
    assemble_context (ranked.take 3) =
      List.intercalate blank_sep ((ranked.take 2).map (fun d => d.content)) ∧
    display_sections (ranked.take 3) =
      (ranked.take 3).map (fun d => (⟨excerpt d.content, d.source⟩ : DocSection)) ∧
    (excerpt c).length = min c.length 500 + (if 500 < c.length then 3 else 0) ∧
    (c.length ≤ 500 → excerpt c = c) ∧
    (500 < c.length → excerpt c = c.take 500 ++ ellipsis ∧ ellipsis.length = 3) ∧
    (∀ store question k t, store ≠ [] → rank_documents question store ≠ [] →
      (query_documents store question k t).relevant_sections =
        display_sections ((rank_documents question store).take 3) ∧
      (query_documents store question k t).answer =
        query_openrouter k question
          (assemble_context ((rank_documents question store).take 3)) t) := by
  refine ⟨?_, rfl, ?_, fun hle => ?_, fun hgt => ?_, ?_⟩
  · unfold assemble_context
    rw [List.take_take]
    norm_num
  · by_cases hgt : 500 < c.length
    · simp only [excerpt, if_pos hgt, List.length_append, List.length_take]
      have he : ellipsis.length = 3 := rfl
      rw [he]
      omega
    · simp only [excerpt, if_neg hgt]
      omega
  · have hgt : ¬ 500 < c.length := not_lt_of_le hle
    simp [excerpt, hgt]
  · exact ⟨by simp [excerpt, hgt], rfl⟩
  · intro store question k t hs hr
    have hse : store.isEmpty = false := by
      cases store with
      | nil => exact absurd rfl hs
      | cons a l => rfl
    have hne : (rank_documents question store).take 3 ≠ [] := by
      rw [Ne, List.take_eq_nil_iff]
      rintro (h3 | h3)
      · exact absurd h3 (by omega)
      · exact hr h3
    have hte : ((rank_documents question store).take 3).isEmpty = false := by
      cases hx : (rank_documents question store).take 3 with
      | nil => exact absurd hx hne
      | cons a l => rfl
    constructor
    · simp [query_documents, query_route, hse, hte]
    · simp [query_documents, query_route, hse, hte]

/-- The single-element ranked sequence used by witnesses. -/
def s_demo : RankedMatch := ⟨demo_content, fn_manual, 1⟩

/-- C3 witness: the assembler and excerpt laws at the demo inputs, and the
query wiring on the demo store. -/
theorem c3_assembler_spec_witness :
    assemble_context ([s_demo].take 3) =
      List.intercalate blank_sep (([s_demo].take 2).map (fun d => d.content)) ∧
    (excerpt demo_content).length =
      min demo_content.length 500 + (if 500 < demo_content.length then 3 else 0) ∧
    (query_documents demo_store q_bearing (some "sk".toList)
        (.httpResponse 200 (.ok "the answer".toList))).relevant_sections =
      display_sections ((rank_documents q_bearing demo_store).take 3) :=
  ⟨(c3_assembler_spec [s_demo] demo_content (by decide)).1,
   (c3_assembler_spec [s_demo] demo_content (by decide)).2.2.1,
   ((c3_assembler_spec [s_demo] demo_content (by decide)).2.2.2.2.2 demo_store q_bearing
      (some "sk".toList) (.httpResponse 200 (.ok "the answer".toList)) (by decide)
      (by
        rw [show rank_documents q_bearing demo_store = [m0] from rfl]
        exact List.cons_ne_nil m0 [])).1⟩

/-- C5 counterexample: on the demo store the query is answered through the
generator (the external answer is returned verbatim), yet its confidence
equals the confidence of the empty-store result, namely 0.0, so the
generator path does not carry a different confidence constant. -/
theorem c5_confidence_counterexample :
    (query_documents demo_store q_bearing (some "sk".toList)
        (.httpResponse 200 (.ok "the answer".toList))).answer = "the answer".toList ∧
    (query_documents demo_store q_bearing (some "sk".toList)
        (.httpResponse 200 (.ok "the answer".toList))).confidence =
      (query_documents [] q_bearing (some "sk".toList)
        (.httpResponse 200 (.ok "the answer".toList))).confidence ∧
    (query_documents [] q_bearing (some "sk".toList)
        (.httpResponse 200 (.ok "the answer".toList))).confidence = 0 :=
  ⟨rfl, rfl, rfl⟩

/-- C5 amended: the confidence field is the fixed constant 0.0 on every
path of the query operation, including the path answered through the
generator. -/
theorem c5_confidence_always_zero (store : Store) (question : Str) (k : Option Str)
    (t : Transport) :
    (query_documents store question k t).confidence = 0 := by
  unfold query_documents query_route
  by_cases h1 : store.isEmpty
  · simp [h1]
  · by_cases h2 : (List.take 3 (rank_documents question store)).isEmpty
    · simp [h1, h2]
    · simp [h1, h2]

/-- C4: deleting a present id removes it and reports success, and deleting
a missing id leaves the store unchanged; but the missing-id path answers
with HTTP status 500 (the catch-all rewraps the internal 404), not with a
404 not-found signal. -/
theorem c4_delete_missing_gives_500 :
    delete_document demo_store "ghost.txt".toList =
      (demo_store, .httpError 500 (exc_str 404 (not_found_detail "ghost.txt".toList))) ∧
    (delete_document demo_store "ghost.txt".toList).1.length = demo_store.length ∧
    delete_document demo_store fn_manual = ([], .ok (deleted_msg fn_manual)) :=
  ⟨rfl, rfl, by decide⟩

/-! Store lemmas for insert, overwrite and delete. -/

theorem countP_key_map_put (s : Store) (id : Str) (d : Doc) :
    (s.map (fun e => if e.1 = id then (id, d) else e)).countP
        (fun e => decide (e.1 = id)) =
      s.countP (fun e => decide (e.1 = id)) := by
  induction s with
  | nil => rfl
  | cons e s ih =>
    by_cases h : e.1 = id
    · simp [List.countP_cons, h, ih]
    · simp [List.countP_cons, h, ih]

theorem put_store_any (s : Store) (id : Str) (d : Doc) :
    (put_store s id d).any (fun e => decide (e.1 = id)) = true := by
  unfold put_store
  by_cases h : s.any (fun e => decide (e.1 = id)) = true
  · rw [if_pos h]
    rw [List.any_eq_true] at h ⊢
    obtain ⟨e, he, hp⟩ := h
    have he1 : e.1 = id := of_decide_eq_true hp
    exact ⟨(id, d), List.mem_map.mpr ⟨e, he, by simp [he1]⟩, by simp⟩
  · rw [if_neg h, List.any_eq_true]
    exact ⟨(id, d), List.mem_append.mpr (Or.inr (List.mem_singleton.mpr rfl)), by simp⟩

theorem count_key_put_of_any (s : Store) (id : Str) (d : Doc)
    (h : s.any (fun e => decide (e.1 = id)) = true) :
    (put_store s id d).countP (fun e => decide (e.1 = id)) =
      s.countP (fun e => decide (e.1 = id)) := by
  unfold put_store
  rw [if_pos h, countP_key_map_put]

theorem count_key_le_one (s : Store) (id : Str) (h : (s.map (fun e => e.1)).Nodup) :
    s.countP (fun e => decide (e.1 = id)) ≤ 1 := by
  induction s with
  | nil => simp
  | cons e s ih =>
    rw [List.map_cons, List.nodup_cons] at h
    rw [List.countP_cons]
    by_cases hp : e.1 = id
    · have hz : s.countP (fun a => decide (a.1 = id)) = 0 := by
        rw [List.countP_eq_zero]
        intro a ha hpa
        have ha1 : a.1 = id := of_decide_eq_true hpa
        exact h.1 (List.mem_map.mpr ⟨a, ha, by rw [ha1, hp]⟩)
      simp [hz, hp]
    · have hc : decide (e.1 = id) = false := decide_eq_false hp
      rw [hc]
      simpa using ih h.2

theorem count_key_put_one (s : Store) (id : Str) (d : Doc)
    (h : (s.map (fun e => e.1)).Nodup) :
    (put_store s id d).countP (fun e => decide (e.1 = id)) = 1 := by
  by_cases hany : s.any (fun e => decide (e.1 = id)) = true
  · rw [count_key_put_of_any s id d hany]
    have hpos : 0 < s.countP (fun e => decide (e.1 = id)) := by
      rw [List.countP_pos_iff]
      rw [List.any_eq_true] at hany
      obtain ⟨e, he, hp⟩ := hany
      exact ⟨e, he, hp⟩
    have hle := count_key_le_one s id h
    omega
  · unfold put_store
    rw [if_neg hany, List.countP_append]
    have hz : s.countP (fun e => decide (e.1 = id)) = 0 := by
      rw [List.countP_eq_zero]
      intro a ha hpa
      exact hany (List.any_eq_true.mpr ⟨a, ha, hpa⟩)
    simp [hz]

theorem find_key_map_put (s : Store) (id : Str) (d : Doc)
    (h : s.any (fun e => decide (e.1 = id)) = true) :
    (s.map (fun e => if e.1 = id then (id, d) else e)).find?
        (fun e => decide (e.1 = id)) = some (id, d) := by
  induction s with
  | nil => simp at h
  | cons e s ih =>
    by_cases hp : e.1 = id
    · rw [List.map_cons, if_pos hp]
      exact List.find?_cons_of_pos _ (by simp)
    · have h2 : s.any (fun e => decide (e.1 = id)) = true := by
        obtain ⟨a, ha, hpa⟩ := List.any_eq_true.mp h
        rcases List.mem_cons.mp ha with rfl | ha2
        · exact absurd (of_decide_eq_true hpa) hp
        · exact List.any_eq_true.mpr ⟨a, ha2, hpa⟩
      rw [List.map_cons, if_neg hp, List.find?_cons_of_neg _ (by simp [hp])]
      exact ih h2

theorem find_key_append_none {s : Store} {p : Str × Doc → Bool}
    (h : s.find? p = none) (l : Store) : (s ++ l).find? p = l.find? p := by
  rw [List.find?_append, h, Option.none_or]

theorem lookup_put (s : Store) (id : Str) (d : Doc) :
    lookup (put_store s id d) id = some d := by
  unfold lookup put_store
  by_cases hany : s.any (fun e => decide (e.1 = id)) = true
  · rw [if_pos hany, find_key_map_put s id d hany]
    rfl
  · rw [if_neg hany]
    have hf : s.find? (fun e => decide (e.1 = id)) = none := by
      rw [List.find?_eq_none]
      intro a ha hpa
      exact hany (List.any_eq_true.mpr ⟨a, ha, hpa⟩)
    rw [find_key_append_none hf]
    simp

theorem mem_put_store {s : Store} {id : Str} {d : Doc} {e : Str × Doc}
    (h : e ∈ put_store s id d) : e ∈ s ∨ e = (id, d) := by
  unfold put_store at h
  by_cases hany : s.any (fun a => decide (a.1 = id)) = true
  · rw [if_pos hany] at h
    obtain ⟨a, ha, hae⟩ := List.mem_map.mp h
    by_cases hp : a.1 = id
    · right
      rw [← hae]
      simp [hp]
    · left
      rw [← hae]
      simpa [hp] using ha
  · rw [if_neg hany] at h
    rcases List.mem_append.mp h with h1 | h1
    · exact Or.inl h1
    · exact Or.inr (List.mem_singleton.mp h1)

/-- Every record in the store has its size equal to the character length of
its content. -/
def sizes_ok (s : Store) : Prop := ∀ e ∈ s, e.2.size = e.2.content.length

theorem sizes_ok_apply_op {s : Store} (h : sizes_ok s) (op : StoreOp) :
    sizes_ok (apply_op s op) := by
  cases op with
  | upsert id c k =>
    intro e he
    rcases mem_put_store he with h1 | h1
    · exact h e h1
    · rw [h1]
  | remove id =>
    intro e he
    simp only [apply_op, delete_document] at he
    by_cases hany : s.any (fun a => decide (a.1 = id)) = true
    · rw [if_pos hany] at he
      exact h e (List.mem_filter.mp he).1
    · rw [if_neg hany] at he
      exact h e he

theorem sizes_ok_run (ops : List StoreOp) : sizes_ok (run_ops ops) := by
  have hgen : ∀ (l : List StoreOp) (s : Store), sizes_ok s → sizes_ok (l.foldl apply_op s) := by
    intro l
    induction l with
    | nil => exact fun s hs => hs
    | cons op l ih => exact fun s hs => ih _ (sizes_ok_apply_op hs op)
  exact hgen ops [] (fun e he => absurd he (List.not_mem_nil e))

/-- C7: storing twice under the same id leaves exactly one entry for that
id, holding the second content with size equal to its character length; and
every store reachable by upload/delete operations keeps every size equal to
the character length of the stored content. -/
theorem c7_put_overwrite_and_size :
    (∀ (s : Store) (id : Str) (c1 c2 : Str) (k1 k2 : DocKind),
      (s.map (fun e => e.1)).Nodup →
      (put_document (put_document s id c1 k1) id c2 k2).countP
          (fun e => decide (e.1 = id)) = 1 ∧
      lookup (put_document (put_document s id c1 k1) id c2 k2) id =
        some ⟨c2, c2.length, k2⟩) ∧
    (∀ ops : List StoreOp, ∀ e ∈ run_ops ops, e.2.size = e.2.content.length) := by
  constructor
  · intro s id c1 c2 k1 k2 hnd
    constructor
    · unfold put_document
      rw [count_key_put_of_any _ id _ (put_store_any s id ⟨c1, c1.length, k1⟩)]
      exact count_key_put_one s id _ hnd
    · exact lookup_put _ id _
  · exact fun ops => sizes_ok_run ops

/-- C7 witness: double store of the manual id on the demo store. -/
theorem c7_put_overwrite_and_size_witness :
    (put_document (put_document demo_store fn_manual "a".toList .txt) fn_manual
        "bb".toList .pdf).countP (fun e => decide (e.1 = fn_manual)) = 1 ∧
    lookup (put_document (put_document demo_store fn_manual "a".toList .txt) fn_manual
        "bb".toList .pdf) fn_manual = some ⟨"bb".toList, "bb".toList.length, .pdf⟩ ∧
    ((⟨demo_content, demo_content.length, DocKind.txt⟩ : Doc)).size = demo_content.length :=
  ⟨(c7_put_overwrite_and_size.1 demo_store fn_manual "a".toList "bb".toList .txt .pdf
      (by decide)).1,
   (c7_put_overwrite_and_size.1 demo_store fn_manual "a".toList "bb".toList .txt .pdf
      (by decide)).2,
   c7_put_overwrite_and_size.2 [.upsert fn_manual demo_content .txt]
     (fn_manual, ⟨demo_content, demo_content.length, .txt⟩) (by decide)⟩

/-! Upload lemmas. -/

theorem keys_put {s : Store} {id fname : Str} {d : Doc}
    (h : fname ∈ keys (put_store s id d)) : fname ∈ keys s ∨ fname = id := by
  unfold keys put_store at *
  by_cases hany : s.any (fun a => decide (a.1 = id)) = true
  · rw [if_pos hany, List.map_map] at h
    obtain ⟨a, ha, hae⟩ := List.mem_map.mp h
    by_cases hp : a.1 = id
    · right
      rw [← hae]
      simp [hp]
    · left
      exact List.mem_map.mpr ⟨a, ha, by simpa [hp] using hae⟩
  · rw [if_neg hany, List.map_append] at h
    rcases List.mem_append.mp h with h1 | h1
    · exact Or.inl h1
    · right
      simpa using h1

theorem upload_go_keys :
    ∀ (files : List FileUpload) (store : Store) (acc : List UploadOk) (fname : Str),
    fname ∈ keys (upload_go store acc files).1 →
    fname ∈ keys store ∨ ∃ f ∈ files, f.filename = fname ∧ valid_ext f.filename = true ∧
      ∃ c, f.extract = .ok c := by
  intro files
  induction files with
  | nil => exact fun store acc fname h => Or.inl h
  | cons f rest ih =>
    intro store acc fname h
    unfold upload_go at h
    by_cases hv : valid_ext f.filename = true
    · rw [if_pos hv] at h
      cases hx : f.extract with
      | raises msg =>
        rw [hx] at h
        exact Or.inl h
      | ok c =>
        rw [hx] at h
        rcases ih _ _ fname h with h1 | ⟨g, hg, hgs⟩
        · rcases keys_put h1 with h2 | h2
          · exact Or.inl h2
          · exact Or.inr ⟨f, List.mem_cons_self f rest, h2.symm, hv, c, hx⟩
        · exact Or.inr ⟨g, List.mem_cons_of_mem f hg, hgs⟩
    · rw [if_neg hv] at h
      exact Or.inl h

/-- C6: a file whose name ends in neither .pdf nor .txt is rejected and the
store is unchanged, but with HTTP status 500 (the catch-all rewraps the
internal 400), not a client-error signal; and any id present after an
upload either was present before or belongs to a file of the request with a
valid extension and a successful extraction, so no failed document is ever
stored. -/
theorem c6_upload_validation_and_state :
    upload_documents demo_store [⟨"notes.docx".toList, .ok "x".toList⟩] =
      (demo_store, .httpError 500 (exc_str 400 (unsupported_detail "notes.docx".toList))) ∧
    (∀ (store : Store) (files : List FileUpload) (fname : Str),
      fname ∈ keys (upload_documents store files).1 →
      fname ∈ keys store ∨ ∃ f ∈ files, f.filename = fname ∧ valid_ext f.filename = true ∧
        ∃ c, f.extract = .ok c) :=
  ⟨by decide, fun store files fname h => upload_go_keys files store [] fname h⟩

/-- C6 witness: after uploading one valid text file into the empty store,
the stored id is accounted for by that file. -/
theorem c6_upload_validation_and_state_witness :
    "guide.txt".toList ∈ keys ([] : Store) ∨
    ∃ f ∈ [(⟨"guide.txt".toList, .ok "hello".toList⟩ : FileUpload)],
      f.filename = "guide.txt".toList ∧ valid_ext f.filename = true ∧
      ∃ c, f.extract = .ok c :=
  c6_upload_validation_and_state.2 []
    [⟨"guide.txt".toList, .ok "hello".toList⟩] "guide.txt".toList (by decide)

end Agent

